import Mathlib

/-!
Verification of the data pipeline of src/app.py (a Dash dashboard plotting
GDP-per-capita time series).

The pipeline under study:
  * value_to_int (app.py lines 20-31): cell normalizer turning suffixed
    strings such as "2.9k" into numbers;
  * the normalization loop (lines 33-34) applying value_to_int to every
    year column;
  * the selection/reshape code of update_graph (lines 140-156): row filter
    by country, positional column slicing by year range, and pd.melt;
  * the random default slider range (lines 58-60).

Python values are modelled shallowly:
  * Python strings are lists of characters (a Lean String is carried at the
    interface and its character list is taken immediately);
  * Python int cells are Cell.int, Python float cells are Cell.float — the
    code raises TypeError on a float cell before ever reading its value
    (the expression <k in x> is evaluated on it), so the model does not
    carry the float's payload;
  * the numbers the normalizer produces are PyNum: pint n is the Python
    int n, pfloat n is a Python float whose exact numeric value is the
    integer n (the only float the normalizer ever produces is the literal
    1000.0 on line 30);
  * a raised Python exception is an Except.error; int() raises ValueError,
    and <k in x> on a float raises TypeError.
-/

namespace App

/-- A cell of the raw table: a Python int, a Python float, or a string. -/
inductive Cell where
  | int (n : Int)
  | float
  | str (s : String)
deriving DecidableEq, Repr

/-- Exceptions the cleaning code can raise. -/
inductive PyErr where
  | valueError
  | typeError
deriving DecidableEq, Repr

/-- A number produced by the normalizer: a Python int, or a Python float
whose exact numeric value is the integer carried (the normalizer only ever
produces the float literal 1000.0). -/
inductive PyNum where
  | pint (n : Int)
  | pfloat (n : Int)
deriving DecidableEq, Repr

/-- Numeric value of a produced number. -/
def pyNumVal : PyNum → Int
  | .pint n => n
  | .pfloat n => n

/-- Python type(x) == int test on a produced number. -/
def pyIsInt : PyNum → Bool
  | .pint _ => true
  | .pfloat _ => false

/-- Reading a produced number back as a raw cell (ints stay ints, the float
stays a float). -/
def pyNumToCell : PyNum → Cell
  | .pint n => .int n
  | .pfloat _ => .float

/-- Value of a string of decimal digits, as Python int() computes it. -/
def digitsToNat (l : List Char) : Nat :=
  l.foldl (fun a c => 10 * a + (c.toNat - 48)) 0

/-- Python str.strip of surrounding whitespace (int() ignores it). -/
def pyTrim (l : List Char) : List Char :=
  ((l.dropWhile Char.isWhitespace).reverse.dropWhile Char.isWhitespace).reverse

/-- Python int(s): optional surrounding whitespace, an optional sign, then
decimal digits; anything else raises ValueError.  (Python additionally
allows single underscores between digits and non-ASCII digits; no cell of
this pipeline uses either, and the model omits them.) -/
def pyIntList (l : List Char) : Except PyErr Int :=
  match pyTrim l with
  | [] => .error .valueError
  | c :: r =>
    if c == '-' then
      if !r.isEmpty && r.all Char.isDigit then .ok (-(digitsToNat r : Int))
      else .error .valueError
    else if c == '+' then
      if !r.isEmpty && r.all Char.isDigit then .ok ((digitsToNat r : Int))
      else .error .valueError
    else if (c :: r).all Char.isDigit then .ok ((digitsToNat (c :: r) : Int))
    else .error .valueError

/-- Python str.split(sep): splits on every occurrence of the separator;
the empty string yields one empty field. -/
def pySplit (sep : Char) : List Char → List (List Char)
  | [] => [[]]
  | c :: rest =>
    let r := pySplit sep rest
    if c == sep then [] :: r else (c :: r.headD []) :: r.tail

/-- app.py lines 20-31, value_to_int(x):
    if type(x) == int: return x
    if <k> in x:
        if <.> in x:
            x = x.replace(<k>, <>)
            vals = x.split(<.>)
            return int(vals[0]) * 1000 + int(vals[1]) * 100
        if len(x) > 1:
            return int(x.replace(<k>, <>)) * 1000
        return 1000.0
    return int(x)
A float cell fails the type(x) == int test and then raises TypeError at
<k in x> (a float is not iterable).  x.replace(<k>, <>) is the removal of
every character k; vals[1] exists whenever the branch is reached because
removing k cannot remove the dot that guarded the branch. -/
def value_to_int : Cell → Except PyErr PyNum
  | .int n => .ok (.pint n)
  | .float => .error .typeError
  | .str s =>
    let l := s.data
    if l.any (fun c => c == 'k') then
      if l.any (fun c => c == '.') then
        let x := l.filter (fun c => !(c == 'k'))
        let vals := pySplit '.' x
        match pyIntList (vals.getD 0 []) with
        | .error e => .error e
        | .ok a =>
          match pyIntList (vals.getD 1 []) with
          | .error e => .error e
          | .ok b => .ok (.pint (a * 1000 + b * 100))
      else if l.length > 1 then
        match pyIntList (l.filter (fun c => !(c == 'k'))) with
        | .error e => .error e
        | .ok a => .ok (.pint (a * 1000))
      else .ok (.pfloat 1000)
    else
      match pyIntList l with
      | .error e => .error e
      | .ok a => .ok (.pint a)

/-- Effectful map over a list with exception propagation: the semantics of
applying a raising function to every element of a column.  (The source
walks the table column by column, each column top to bottom; when more than
one cell raises, only which exception surfaces differs, and nothing below
depends on that choice, so the traversal is written row-major.) -/
def mapE (f : α → Except PyErr β) : List α → Except PyErr (List β)
  | [] => .ok []
  | a :: l =>
    match f a with
    | .error e => .error e
    | .ok b =>
      match mapE f l with
      | .error e => .error e
      | .ok bs => .ok (b :: bs)

/-- app.py lines 33-34: value_to_int applied to every cell of every year
column; the country identifier of each row is left untouched. -/
def normalize (T : List (String × List Cell)) :
    Except PyErr (List (String × List PyNum)) :=
  mapE (fun r => (mapE value_to_int r.2).map (fun vs => (r.1, vs))) T

/-- A column label of the frame: the country column or a year column.
(In the CSV the year labels are strings; the code converts them to ints
once, on line 58, and the model carries them as ints throughout.) -/
inductive Col where
  | country
  | year (y : Int)
deriving DecidableEq, Repr

/-- The in-memory frame: the year column labels in order, and one row per
country carrying the values of the year columns in the same order. -/
structure DF (V : Type) where
  cols : List Int
  rows : List (String × List V)
deriving DecidableEq, Repr

/-- The frame's full column list, df.columns: the country column first,
then the year columns. -/
def fullCols (df : DF V) : List Col :=
  Col.country :: df.cols.map Col.year

/-- Every row carries one value per year column (always true of a pandas
frame; the slicing code relies on it). -/
def WF (df : DF V) : Prop :=
  ∀ r ∈ df.rows, r.2.length = df.cols.length

/-- Python slice-endpoint normalization for a sequence of the given
length: negative indices count from the end, then both ends are clamped
into [0, length]. -/
def pyNorm (len : Nat) (i : Int) : Nat :=
  if i < 0 then ((len : Int) + i).toNat else min i.toNat len

/-- Python l[i:j] (step 1). -/
def pySlice (l : List α) (i j : Int) : List α :=
  let a := pyNorm l.length i
  let b := pyNorm l.length j
  (l.drop a).take (b - a)

/-- The values of a row that survive dropping the given column labels
(values sit in the positions of their year labels). -/
def keepVals (cols : List Int) (dropped : List Col) (vals : List V) : List V :=
  ((cols.zip vals).filter (fun p => decide (Col.year p.1 ∉ dropped))).map Prod.snd

/-- df.drop(df.columns[i:j], axis=1): remove the columns whose label lies
in the given slice of the full column list (all labels are distinct: the
country label and the pairwise distinct year labels). -/
def dropSlice (df : DF V) (i j : Int) : DF V :=
  let dropped := pySlice (fullCols df) i j
  ⟨df.cols.filter (fun y => decide (Col.year y ∉ dropped)),
   df.rows.map (fun r => (r.1, keepVals df.cols dropped r.2))⟩

/-- years[0], the table's first (minimum) year.  The source indexes the
nonempty global year array; the claims below always assume at least one
year column, so the default of the empty case is never reached. -/
def minYear (df : DF V) : Int :=
  df.cols.headD 0

/-- app.py lines 141-148, the selection step of update_graph:
    mini_df = df.loc[df[<country>].isin(selected_countries)]
    small = selected_years[0] - years[0]
    big = selected_years[1] - years[0]
    mini_df = mini_df.drop(mini_df.columns[1:small+1], axis=1)
    mini_df = mini_df.drop(mini_df.columns[big-small+2:len(mini_df.columns)+1], axis=1)
-/
def select (df : DF V) (C : List String) (sy ey : Int) : DF V :=
  let mini : DF V := ⟨df.cols, df.rows.filter (fun r => decide (r.1 ∈ C))⟩
  let small : Int := sy - minYear df
  let big : Int := ey - minYear df
  let m1 := dropSlice mini 1 (small + 1)
  dropSlice m1 (big - small + 2) (((fullCols m1).length : Int) + 1)

/-- The records contributed by one year column to pd.melt: the column is
walked top to bottom, one (country, year, value) triple per row. -/
def colRecords (df : DF V) (j : Nat) (y : Int) : List (String × Int × V) :=
  df.rows.filterMap (fun r => (r.2.get? j).map (fun v => (r.1, y, v)))

/-- app.py lines 151-156: pd.melt(mini_df, id_vars=[<country>],
var_name=<year>) stacks the year columns in column order, each column top
to bottom.  The subsequent pd.to_numeric calls turn the year labels into
ints (already ints in the model) and leave the already numeric values as
they are; the rename of the value column does not change the data. -/
def melt (df : DF V) : List (String × Int × V) :=
  df.cols.enum.flatMap (fun jy => colRecords df jy.1 jy.2)

/-- app.py lines 140-156, update_graph up to the chart call: select then
melt; the figure plots exactly these tidy records. -/
def update_graph (df : DF V) (C : List String) (sy ey : Int) :
    List (String × Int × V) :=
  melt (select df C sy ey)

/-- The contiguous ascending year header starting at y0 with n entries
(the §3 invariant of the table's year columns). -/
def rangeYears (y0 : Int) : Nat → List Int
  | 0 => []
  | n + 1 => y0 :: rangeYears (y0 + 1) n

/-- app.py line 59: the largest value random.randint can draw for the
default start index, math.floor(2*len(years)/3). -/
def maxStart (n : Nat) : Nat := 2 * n / 3

/-- app.py line 60: the default window length math.floor(len(years)/3). -/
def windowLen (n : Nat) : Nat := n / 3

/-- app.py line 60: end = start + math.floor(len(years)/3); the slider
default is [years[start], years[end]]. -/
def sliderEnd (n start : Nat) : Nat := start + windowLen n

/-- The raw table of the end-to-end scenario of §8: countries Andorra and
Zimbabwe, years 2000-2002, values Andorra = 1000, 1100, 1200 and
Zimbabwe = 500, "1.5k", 600. -/
def rawScenario : List (String × List Cell) :=
  [("Andorra", [.int 1000, .int 1100, .int 1200]),
   ("Zimbabwe", [.int 500, .str "1.5k", .int 600])]

/-- The canonical frame the scenario's raw table normalizes to. -/
def scenarioDF : DF PyNum :=
  ⟨[2000, 2001, 2002],
   [("Andorra", [.pint 1000, .pint 1100, .pint 1200]),
    ("Zimbabwe", [.pint 500, .pint 1500, .pint 600])]⟩

/-! ## Character and parsing lemmas -/

theorem digit_ne_of {c : Char} (h : c.isDigit = true) {d : Char}
    (hd : d.isDigit = false) : c ≠ d := by
  intro he
  subst he
  rw [h] at hd
  exact Bool.noConfusion hd

theorem digit_beq_false {c d : Char} (h : c.isDigit = true)
    (hd : d.isDigit = false) : (c == d) = false := by
  simp [digit_ne_of h hd]

theorem digit_not_ws {c : Char} (h : c.isDigit = true) :
    c.isWhitespace = false := by
  have h1 : c ≠ ' ' := digit_ne_of h (by decide)
  have h2 : c ≠ '\t' := digit_ne_of h (by decide)
  have h3 : c ≠ '\r' := digit_ne_of h (by decide)
  have h4 : c ≠ '\n' := digit_ne_of h (by decide)
  simp [Char.isWhitespace, h1, h2, h3, h4]

theorem dropWhile_ws_digits {l : List Char} (h : ∀ c ∈ l, c.isDigit = true) :
    l.dropWhile Char.isWhitespace = l := by
  cases l with
  | nil => rfl
  | cons c r =>
    have hc := digit_not_ws (h c (by simp))
    simp [List.dropWhile_cons, hc]

theorem pyTrim_digits {l : List Char} (h : ∀ c ∈ l, c.isDigit = true) :
    pyTrim l = l := by
  unfold pyTrim
  rw [dropWhile_ws_digits h,
    dropWhile_ws_digits (fun c hc => h c (List.mem_reverse.mp hc)),
    List.reverse_reverse]

theorem pyIntList_digits {l : List Char} (hne : l ≠ [])
    (h : ∀ c ∈ l, c.isDigit = true) :
    pyIntList l = .ok ((digitsToNat l : Int)) := by
  unfold pyIntList
  rw [pyTrim_digits h]
  cases l with
  | nil => exact absurd rfl hne
  | cons c r =>
    have hc : c.isDigit = true := h c (by simp)
    have hminus : (c == '-') = false := digit_beq_false hc (by decide)
    have hplus : (c == '+') = false := digit_beq_false hc (by decide)
    have hall : (c :: r).all Char.isDigit = true := List.all_eq_true.mpr h
    simp [hminus, hplus, hall]

theorem pySplit_no_sep {sep : Char} {l : List Char}
    (h : ∀ c ∈ l, (c == sep) = false) : pySplit sep l = [l] := by
  induction l with
  | nil => rfl
  | cons c r ih =>
    rw [pySplit, ih (fun x hx => h x (List.mem_cons_of_mem _ hx))]
    simp [h c (by simp)]

theorem pySplit_append {sep : Char} {I F : List Char}
    (h : ∀ c ∈ I, (c == sep) = false) :
    pySplit sep (I ++ sep :: F) = I :: pySplit sep F := by
  induction I with
  | nil => simp [pySplit]
  | cons c I ih =>
    have hih := ih (fun x hx => h x (List.mem_cons_of_mem _ hx))
    rw [List.cons_append, pySplit, hih]
    simp [h c (by simp)]

/-- The filter performed by x.replace(k, empty) on a decimal-suffix cell:
only the trailing k disappears. -/
theorem filter_k_decimal {I F : List Char}
    (hdI : ∀ c ∈ I, c.isDigit = true) (hdF : ∀ c ∈ F, c.isDigit = true) :
    (I ++ '.' :: (F ++ ['k'])).filter (fun c => !(c == 'k')) = I ++ '.' :: F := by
  rw [List.filter_append, List.filter_cons, List.filter_append]
  rw [List.filter_eq_self.mpr
    (fun c hc => by rw [digit_beq_false (hdI c hc) (by decide)]; rfl)]
  rw [List.filter_eq_self.mpr
    (fun c hc => by rw [digit_beq_false (hdF c hc) (by decide)]; rfl)]
  simp

/-- The general law of the decimal branch of value_to_int: for a cell
I.Fk with digit strings I and F, the result is int(I) * 1000 plus
int(F) * 100 where F is the ENTIRE fractional digit string (so a second
fractional digit is scaled by 100 as well, not dropped). -/
theorem value_to_int_decimal (I F : List Char) (hI : I ≠ []) (hF : F ≠ [])
    (hdI : ∀ c ∈ I, c.isDigit = true) (hdF : ∀ c ∈ F, c.isDigit = true) :
    value_to_int (.str ⟨I ++ '.' :: (F ++ ['k'])⟩) =
      .ok (.pint ((digitsToNat I : Int) * 1000 + (digitsToNat F : Int) * 100)) := by
  have hany_k : (I ++ '.' :: (F ++ ['k'])).any (fun c => c == 'k') = true :=
    List.any_eq_true.mpr ⟨'k', by simp, by simp⟩
  have hany_dot : (I ++ '.' :: (F ++ ['k'])).any (fun c => c == '.') = true :=
    List.any_eq_true.mpr ⟨'.', by simp, by simp⟩
  have hsplit : pySplit '.' (I ++ '.' :: F) = [I, F] := by
    rw [pySplit_append (fun c hc => digit_beq_false (hdI c hc) (by decide)),
      pySplit_no_sep (fun c hc => digit_beq_false (hdF c hc) (by decide))]
  simp only [value_to_int, hany_k, hany_dot, if_true,
    filter_k_decimal hdI hdF, hsplit, List.getD, List.get?, Option.getD_some]
  rw [pyIntList_digits hI hdI, pyIntList_digits hF hdF]

/-! ## Claim C1 — decimal-suffix cells -/

/-- C1 (counterexample): the claim states that fractional digits after the
first are silently dropped and that normalize_cell of 2.95k is 2900; the
code multiplies the ENTIRE fractional part by 100, so 2.95k normalizes to
2 * 1000 + 95 * 100 = 11500, not 2900. -/
theorem c1_counterexample :
    value_to_int (.str "2.95k") = .ok (.pint 11500) ∧
    value_to_int (.str "2.95k") ≠ .ok (.pint 2900) := by
  constructor
  · rfl
  · intro h
    have h2 : (Except.ok (PyNum.pint 11500) : Except PyErr PyNum) = .ok (.pint 2900) := by
      rw [← h]
      rfl
    rw [Except.ok.injEq, PyNum.pint.injEq] at h2

    omega

/-- C1 (amended): for every cell string of the form I.Fk with nonempty
digit strings I and F, the normalizer returns int(I) * 1000 + int(F) * 100
where F is the ENTIRE fractional digit string — so 2.9k gives 2900, but
2.90k gives 11000 and 2.95k gives 11500: fractional digits after the first
are not dropped, they are all scaled by 100. -/
theorem c1_amended (I F : List Char) (hI : I ≠ []) (hF : F ≠ [])
    (hdI : ∀ c ∈ I, c.isDigit = true) (hdF : ∀ c ∈ F, c.isDigit = true) :
    value_to_int (.str ⟨I ++ '.' :: (F ++ ['k'])⟩) =
      .ok (.pint ((digitsToNat I : Int) * 1000 + (digitsToNat F : Int) * 100)) :=
  value_to_int_decimal I F hI hF hdI hdF

/-- C1 (witness): the amended law evaluated at 2.90k: the result is
2 * 1000 + 90 * 100 = 11000. -/
theorem c1_amended_witness :
    value_to_int (.str ⟨['2'] ++ '.' :: (['9', '0'] ++ ['k'])⟩) =
      .ok (.pint ((digitsToNat ['2'] : Int) * 1000 + (digitsToNat ['9', '0'] : Int) * 100)) :=
  c1_amended ['2'] ['9', '0'] (by decide) (by decide) (by decide) (by decide)

/-! ## Claim C10 — literal non-decimal cases -/

/-- C10: the normalizer's literal non-decimal cases: 5k normalizes to
5000; the bare suffix k normalizes to the float 1000.0, numerically 1000;
the plain digit string 1234 normalizes to 1234; and a cell that is already
an integer is returned unchanged. -/
theorem c10_literal_cases :
    value_to_int (.str "5k") = .ok (.pint 5000) ∧
    (value_to_int (.str "k") = .ok (.pfloat 1000) ∧ pyNumVal (.pfloat 1000) = 1000) ∧
    value_to_int (.str "1234") = .ok (.pint 1234) ∧
    ∀ n : Int, value_to_int (.int n) = .ok (.pint n) :=
  ⟨rfl, ⟨rfl, rfl⟩, rfl, fun _ => rfl⟩

/-! ## Claim C7 — normalized values are integers -/

/-- C7 (counterexample): the claim states every accepted cell normalizes
to a plain integer, including the bare-suffix case; but the bare suffix k
normalizes to the Python float 1000.0, which is not a plain int. -/
theorem c7_counterexample :
    value_to_int (.str "k") = .ok (.pfloat 1000) ∧
    pyIsInt (.pfloat 1000) = false := ⟨rfl, rfl⟩

/-- C7 (amended): every value the normalizer accepts is numerically an
integer, and it is a plain Python int in every case except the bare
suffix k, which yields the float 1000.0 (numerically 1000). -/
theorem c7_amended :
    ∀ c v, value_to_int c = .ok v → pyIsInt v = true ∨ v = .pfloat 1000 := by
  intro c v h
  cases c with
  | int n => rw [value_to_int, Except.ok.injEq] at h; subst h; exact Or.inl rfl
  | float => exact Except.noConfusion (rfl.symm.trans h)
  | str s =>
    simp only [value_to_int] at h
    split at h
    · split at h
      · split at h
        · exact Except.noConfusion h
        · split at h
          · exact Except.noConfusion h
          · rw [Except.ok.injEq] at h; subst h; exact Or.inl rfl
      · split at h
        · split at h
          · exact Except.noConfusion h
          · rw [Except.ok.injEq] at h; subst h; exact Or.inl rfl
        · rw [Except.ok.injEq] at h; subst h; exact Or.inr rfl
    · split at h
      · exact Except.noConfusion h
      · rw [Except.ok.injEq] at h; subst h; exact Or.inl rfl

/-- C7 (witness): the amended statement at the integer cell 5. -/
theorem c7_amended_witness :
    pyIsInt (.pint 5) = true ∨ (PyNum.pint 5) = .pfloat 1000 :=
  c7_amended (.int 5) (.pint 5) rfl

/-! ## Claim C6 — when normalization fails -/

/-- mapE succeeds exactly when the function succeeds on every element. -/
theorem mapE_ok_iff (f : α → Except PyErr β) (l : List α) :
    (∃ bs, mapE f l = .ok bs) ↔ ∀ a ∈ l, ∃ b, f a = .ok b := by
  induction l with
  | nil => simp [mapE]
  | cons a l ih =>
    cases hfa : f a with
    | error e =>
      simp only [mapE, hfa]
      constructor
      · rintro ⟨bs, h⟩
        exact Except.noConfusion h
      · intro h
        rcases h a (by simp) with ⟨b, hb⟩
        rw [hfa] at hb
        exact Except.noConfusion hb
    | ok b =>
      simp only [mapE, hfa]
      cases hml : mapE f l with
      | error e =>
        constructor
        · rintro ⟨bs, h⟩
          exact Except.noConfusion h
        · intro h
          rcases ih.mpr (fun x hx => h x (List.mem_cons_of_mem _ hx)) with ⟨bs, hbs⟩
          rw [hml] at hbs
          exact Except.noConfusion hbs
      | ok bs =>
        constructor
        · rintro ⟨cs, h⟩ x hx
          rcases List.mem_cons.mp hx with rfl | hx'
          · exact ⟨b, hfa⟩
          · exact (ih.mp ⟨bs, hml⟩) x hx'
        · intro h
          exact ⟨b :: bs, rfl⟩

theorem except_map_ok_iff (e : Except PyErr α) (g : α → β) :
    (∃ x, e.map g = .ok x) ↔ ∃ a, e = .ok a := by
  cases e <;> simp [Except.map]

/-- normalize succeeds exactly when value_to_int accepts every cell of
every row. -/
theorem normalize_ok_iff (T : List (String × List Cell)) :
    (∃ T', normalize T = .ok T') ↔
      ∀ r ∈ T, ∀ c ∈ r.2, ∃ v, value_to_int c = .ok v := by
  unfold normalize
  rw [mapE_ok_iff]
  constructor
  · intro h r hr
    exact (mapE_ok_iff _ _).mp ((except_map_ok_iff _ _).mp (h r hr))
  · intro h r hr
    exact (except_map_ok_iff _ _).mpr ((mapE_ok_iff _ _).mpr (h r hr))

/-- C6 (counterexample): the claim states that normalization succeeds on
float cells; but a float cell fails the type(x) == int test and then
raises TypeError at the membership test <k in x> (a float is not
iterable), so ingestion fails on it — and with TypeError, not the
FormatError (ValueError) of the parsing grammar. -/
theorem c6_counterexample :
    normalize [("Albania", [Cell.float])] = .error .typeError := rfl

/-- C6 (amended): normalize fails exactly when some cell is rejected by
value_to_int; integer cells are always accepted, float cells always fail
(with TypeError rather than FormatError), a plain digit string is
accepted with its base-10 value, and a string without the suffix k is
accepted exactly as int() accepts it (ValueError otherwise). -/
theorem c6_amended :
    (∀ T, (∃ T', normalize T = .ok T') ↔
      ∀ r ∈ T, ∀ c ∈ r.2, ∃ v, value_to_int c = .ok v) ∧
    value_to_int .float = .error .typeError ∧
    (∀ n : Int, value_to_int (.int n) = .ok (.pint n)) ∧
    (∀ l : List Char, l ≠ [] → (∀ c ∈ l, c.isDigit = true) →
      value_to_int (.str ⟨l⟩) = .ok (.pint (digitsToNat l))) ∧
    (∀ s : String, s.data.any (fun c => c == 'k') = false →
      value_to_int (.str s) = (pyIntList s.data).map PyNum.pint) := by
  refine ⟨normalize_ok_iff, rfl, fun n => rfl, ?_, ?_⟩
  · intro l hne hdig
    have hnok : (l.any fun c => c == 'k') = false := by
      rw [List.any_eq_false]
      intro c hc
      rw [digit_beq_false (hdig c hc) (by decide)]
      exact Bool.noConfusion
    simp only [value_to_int, hnok, Bool.false_eq_true, if_false,
      pyIntList_digits hne hdig]
  · intro s hnok
    simp only [value_to_int, hnok, Bool.false_eq_true, if_false]
    cases pyIntList s.data <;> rfl

/-- C6 (witness): the digit-string case of the amended statement at the
one-character string 7. -/
theorem c6_amended_witness :
    value_to_int (.str ⟨['7']⟩) = .ok (.pint (digitsToNat ['7'])) :=
  c6_amended.2.2.2.1 ['7'] (by decide) (by decide)

/-! ## Claim C8 — idempotence on canonical tables -/

/-- Re-normalizing a column of plain ints returns it unchanged. -/
theorem mapE_pint_vals (vs : List PyNum) (h : ∀ v ∈ vs, pyIsInt v = true) :
    mapE value_to_int (vs.map pyNumToCell) = .ok vs := by
  induction vs with
  | nil => rfl
  | cons v vs ih =>
    cases v with
    | pint n =>
      simp only [List.map_cons, mapE, pyNumToCell, value_to_int]
      rw [ih (fun x hx => h x (List.mem_cons_of_mem _ hx))]
    | pfloat n =>
      have := h (.pfloat n) (by simp)
      exact absurd this (by simp [pyIsInt])

/-- C8: normalization is idempotent on canonical tables: re-reading an
already-normalized table whose values are all plain ints (the §3
CanonicalTable invariant) and normalizing it again yields the same table,
every already-integer cell passing through unchanged. -/
theorem c8_idempotent :
    ∀ T' : List (String × List PyNum), (∀ r ∈ T', ∀ v ∈ r.2, pyIsInt v = true) →
      normalize (T'.map (fun r => (r.1, r.2.map pyNumToCell))) = .ok T' := by
  intro T' h
  induction T' with
  | nil => rfl
  | cons r T ih =>
    simp only [List.map_cons, normalize, mapE]
    rw [show normalize (T.map (fun r => (r.1, r.2.map pyNumToCell)))
        = mapE (fun r => (mapE value_to_int r.2).map (fun vs => (r.1, vs)))
            (T.map (fun r => (r.1, r.2.map pyNumToCell))) from rfl] at ih
    rw [mapE_pint_vals r.2 (h r (by simp)),
      ih (fun x hx => h x (List.mem_cons_of_mem _ hx))]
    rfl

/-- C8 (witness): a one-row all-integer canonical table re-normalizes to
itself. -/
theorem c8_idempotent_witness :
    normalize ([("Andorra", [PyNum.pint 1000])].map
      (fun r => (r.1, r.2.map pyNumToCell))) = .ok [("Andorra", [PyNum.pint 1000])] :=
  c8_idempotent [("Andorra", [PyNum.pint 1000])] (by
    intro r hr v hv
    rcases List.mem_singleton.mp hr with rfl
    rcases List.mem_singleton.mp hv with rfl
    rfl)

/-! ## Claim C9 — the default slider range -/

theorem rangeYears_length (y0 : Int) (n : Nat) :
    (rangeYears y0 n).length = n := by
  induction n generalizing y0 with
  | zero => rfl
  | succ m ih => simp [rangeYears, ih]

/-- C9 (counterexample): with 3 year columns the random start may be
maxStart 3 = 2, and then the default end index is 2 + 1 = 3, which is not
a valid index into the 3-element year sequence (years[3] would raise
IndexError). -/
theorem c9_counterexample :
    2 ≤ maxStart 3 ∧ ¬ sliderEnd 3 2 < (rangeYears 1800 3).length := by
  rw [rangeYears_length]
  decide

/-- C9 (amended): whenever the number of year columns is NOT a multiple
of 3, every draw start ≤ floor(2n/3) gives a default end index
start + floor(n/3) that is a valid index into the year sequence (as is
the start index); when 3 divides n, the maximal draw yields end = n, out
of bounds. -/
theorem c9_amended :
    ∀ (n start : Nat) (y0 : Int), n % 3 ≠ 0 → start ≤ maxStart n →
      start < (rangeYears y0 n).length ∧
      sliderEnd n start < (rangeYears y0 n).length := by
  intro n start y0 h1 h2
  rw [rangeYears_length]
  unfold maxStart at h2
  unfold sliderEnd windowLen
  have hmod := Nat.div_add_mod n 3
  have hmod2 := Nat.div_add_mod (2 * n) 3
  have hm : n % 3 < 3 := Nat.mod_lt _ (by decide)
  have hm2 : 2 * n % 3 < 3 := Nat.mod_lt _ (by decide)
  constructor <;> omega

/-- C9 (witness): the amended statement with 4 year columns starting at
1800 and the maximal draw start = 2. -/
theorem c9_amended_witness :
    2 < (rangeYears 1800 4).length ∧ sliderEnd 4 2 < (rangeYears 1800 4).length :=
  c9_amended 4 2 1800 (by decide) (by decide)

/-! ## List lemmas for the slicing engine -/

theorem filter_not_mem_right {α} [DecidableEq α] {l₁ l₂ : List α}
    (hd : ∀ a ∈ l₂, a ∉ l₁) :
    (l₁ ++ l₂).filter (fun a => decide (a ∉ l₁)) = l₂ := by
  rw [List.filter_append,
    List.filter_eq_nil_iff.mpr (fun a ha => by simp [ha]),
    List.filter_eq_self.mpr (fun a ha => by simp [hd a ha])]
  rfl

theorem filter_not_mem_left {α} [DecidableEq α] {l₁ l₂ : List α}
    (hd : ∀ a ∈ l₁, a ∉ l₂) :
    (l₁ ++ l₂).filter (fun a => decide (a ∉ l₂)) = l₁ := by
  rw [List.filter_append,
    List.filter_eq_self.mpr (fun a ha => by simp [hd a ha]),
    List.filter_eq_nil_iff.mpr (fun a ha => by simp [ha])]
  simp

theorem filter_not_mem_take {α} [DecidableEq α] {l : List α}
    (h : l.Nodup) (k : Nat) :
    l.filter (fun a => decide (a ∉ l.take k)) = l.drop k := by
  have hd : ∀ a ∈ l.drop k, a ∉ l.take k := fun a ha hta =>
    List.disjoint_take_drop h (Nat.le_refl k) hta ha
  calc l.filter (fun a => decide (a ∉ l.take k))
      = (l.take k ++ l.drop k).filter (fun a => decide (a ∉ l.take k)) := by
        rw [List.take_append_drop]
    _ = l.drop k := filter_not_mem_right hd

theorem filter_not_mem_drop {α} [DecidableEq α] {l : List α}
    (h : l.Nodup) (k : Nat) :
    l.filter (fun a => decide (a ∉ l.drop k)) = l.take k := by
  have hd : ∀ a ∈ l.take k, a ∉ l.drop k := fun a ha hta =>
    List.disjoint_take_drop h (Nat.le_refl k) ha hta
  calc l.filter (fun a => decide (a ∉ l.drop k))
      = (l.take k ++ l.drop k).filter (fun a => decide (a ∉ l.drop k)) := by
        rw [List.take_append_drop]
    _ = l.take k := filter_not_mem_left hd

theorem map_fst_filter {α} (p : String → Bool) (rows : List (String × α)) :
    (rows.filter (fun r => p r.1)).map Prod.fst = (rows.map Prod.fst).filter p := by
  induction rows with
  | nil => rfl
  | cons r rs ih =>
    rw [List.filter_cons, List.map_cons, List.filter_cons]
    cases hp : p r.1 <;> simp [hp, ih]

/-! ## rangeYears lemmas -/

theorem mem_rangeYears {y : Int} : ∀ {y0 : Int} {n : Nat},
    y ∈ rangeYears y0 n ↔ y0 ≤ y ∧ y < y0 + n := by
  intro y0 n
  induction n generalizing y0 with
  | zero => simp [rangeYears]
  | succ m ih =>
    simp only [rangeYears, List.mem_cons, ih]
    push_cast
    omega

theorem rangeYears_nodup (y0 : Int) (n : Nat) : (rangeYears y0 n).Nodup := by
  induction n generalizing y0 with
  | zero => simp [rangeYears]
  | succ m ih =>
    rw [rangeYears, List.nodup_cons]
    refine ⟨fun h => ?_, ih (y0 + 1)⟩
    rw [mem_rangeYears] at h
    omega

theorem rangeYears_take (k : Nat) : ∀ (y0 : Int) (n : Nat),
    (rangeYears y0 n).take k = rangeYears y0 (min k n) := by
  induction k with
  | zero => intro y0 n; simp [rangeYears]
  | succ k ih =>
    intro y0 n
    cases n with
    | zero => simp [rangeYears]
    | succ m =>
      rw [rangeYears, List.take_succ_cons, ih, Nat.succ_min_succ, rangeYears]

theorem rangeYears_drop (k : Nat) : ∀ (y0 : Int) (n : Nat),
    (rangeYears y0 n).drop k = rangeYears (y0 + (k : Int)) (n - k) := by
  induction k with
  | zero => intro y0 n; simp
  | succ k ih =>
    intro y0 n
    cases n with
    | zero => simp [rangeYears]
    | succ m =>
      rw [rangeYears, List.drop_succ_cons, ih,
        show y0 + 1 + (k : Int) = y0 + ((k + 1 : Nat) : Int) by push_cast; ring,
        Nat.succ_sub_succ]

theorem rangeYears_headD {n : Nat} (y0 : Int) (hn : 0 < n) :
    (rangeYears y0 n).headD 0 = y0 := by
  cases n with
  | zero => omega
  | succ m => rfl

/-! ## pyNorm and pySlice lemmas -/

theorem pyNorm_of_nonneg_le {len : Nat} {i : Int} (h0 : 0 ≤ i)
    (hle : i ≤ (len : Int)) : pyNorm len i = i.toNat := by
  unfold pyNorm
  rw [if_neg (by omega)]
  exact Nat.min_eq_left (by omega)

theorem pyNorm_of_ge {len : Nat} {i : Int} (h : (len : Int) ≤ i) :
    pyNorm len i = len := by
  unfold pyNorm
  rw [if_neg (by omega)]
  exact Nat.min_eq_right (by omega)

theorem pySlice_eq_nil {l : List α} {i j : Int}
    (h : pyNorm l.length j ≤ pyNorm l.length i) : pySlice l i j = [] := by
  show (l.drop (pyNorm l.length i)).take (pyNorm l.length j - pyNorm l.length i) = []
  rw [Nat.sub_eq_zero_of_le h, List.take_zero]

/-! ## dropSlice lemmas -/

theorem fullCols_length (df : DF V) : (fullCols df).length = df.cols.length + 1 := by
  simp [fullCols]

/-- The first drop of update_graph removes the first k year columns:
df.columns[1:k+1] is exactly their label list. -/
theorem dropSlice_prefix_dropped (df : DF V) (k : Nat) (hk : k ≤ df.cols.length) :
    pySlice (fullCols df) 1 ((k : Int) + 1) = (df.cols.take k).map Col.year := by
  show ((fullCols df).drop (pyNorm (fullCols df).length 1)).take
      (pyNorm (fullCols df).length ((k : Int) + 1) - pyNorm (fullCols df).length 1) = _
  rw [fullCols_length] at *
  rw [pyNorm_of_nonneg_le (by omega) (by push_cast; omega),
    pyNorm_of_nonneg_le (by omega) (by push_cast; omega)]
  show ((fullCols df).drop 1).take (((k : Int) + 1).toNat - (1 : Int).toNat) = _
  rw [show ((k : Int) + 1).toNat - (1 : Int).toNat = k by omega]
  show (df.cols.map Col.year).take k = _
  rw [List.map_take]

theorem dropSlice_prefix_cols (df : DF V) (hnd : df.cols.Nodup) (k : Nat)
    (hk : k ≤ df.cols.length) :
    (dropSlice df 1 ((k : Int) + 1)).cols = df.cols.drop k := by
  show df.cols.filter _ = _
  rw [List.filter_congr (fun y hy => ?_), filter_not_mem_take hnd k]
  rw [dropSlice_prefix_dropped df k hk, decide_eq_decide, not_iff_not]
  constructor
  · intro hm
    rcases List.mem_map.mp hm with ⟨a, ha, hay⟩
    cases hay
    exact ha
  · exact List.mem_map_of_mem _

/-- The second drop of update_graph removes all year columns from
position k on: mini_df.columns[k+1 : len+1] is their label list. -/
theorem dropSlice_suffix_dropped (df : DF V) (k : Nat) (hk : k ≤ df.cols.length)
    {j : Int} (hj : (df.cols.length : Int) + 1 ≤ j) :
    pySlice (fullCols df) ((k : Int) + 1) j = (df.cols.drop k).map Col.year := by
  show ((fullCols df).drop (pyNorm (fullCols df).length ((k : Int) + 1))).take
      (pyNorm (fullCols df).length j - pyNorm (fullCols df).length ((k : Int) + 1)) = _
  rw [fullCols_length] at *
  rw [pyNorm_of_ge (by push_cast; omega),
    pyNorm_of_nonneg_le (by omega) (by push_cast; omega)]
  rw [show ((k : Int) + 1).toNat = k + 1 by omega]
  show ((Col.country :: df.cols.map Col.year).drop (k + 1)).take
      (df.cols.length + 1 - (k + 1)) = _
  rw [List.drop_succ_cons, ← List.map_drop]
  exact List.take_of_length_le (by simp)

theorem dropSlice_suffix_cols (df : DF V) (hnd : df.cols.Nodup) (k : Nat)
    (hk : k ≤ df.cols.length) {j : Int} (hj : (df.cols.length : Int) + 1 ≤ j) :
    (dropSlice df ((k : Int) + 1) j).cols = df.cols.take k := by
  show df.cols.filter _ = _
  rw [List.filter_congr (fun y hy => ?_), filter_not_mem_drop hnd k]
  rw [dropSlice_suffix_dropped df k hk hj, decide_eq_decide, not_iff_not]
  constructor
  · intro hm
    rcases List.mem_map.mp hm with ⟨a, ha, hay⟩
    cases hay
    exact ha
  · exact List.mem_map_of_mem _

theorem dropSlice_rows_fst (df : DF V) (i j : Int) :
    (dropSlice df i j).rows.map Prod.fst = df.rows.map Prod.fst := by
  show (df.rows.map _).map Prod.fst = _
  rw [List.map_map]
  rfl

/-! ## Well-formedness preservation -/

theorem length_filter_zip_fst {α β} (p : α → Bool) :
    ∀ (l₁ : List α) (l₂ : List β), l₂.length = l₁.length →
      ((l₁.zip l₂).filter (fun x => p x.1)).length = (l₁.filter p).length
  | [], [], _ => rfl
  | [], b :: l₂, h => by simp at h
  | a :: l₁, [], h => by simp at h
  | a :: l₁, b :: l₂, h => by
    simp only [List.zip_cons_cons, List.filter_cons]
    cases hp : p a <;>
      simp [hp, length_filter_zip_fst p l₁ l₂ (by simpa using h)]

theorem WF_dropSlice {df : DF V} (h : WF df) (i j : Int) :
    WF (dropSlice df i j) := by
  intro r' hr'
  have hr'' : r' ∈ df.rows.map (fun r =>
      (r.1, keepVals df.cols (pySlice (fullCols df) i j) r.2)) := hr'
  rw [List.mem_map] at hr''
  rcases hr'' with ⟨r, hr, rfl⟩
  show (keepVals df.cols (pySlice (fullCols df) i j) r.2).length
      = (df.cols.filter (fun y => decide (Col.year y ∉ pySlice (fullCols df) i j))).length
  unfold keepVals
  rw [List.length_map]
  exact length_filter_zip_fst
    (fun y => decide (Col.year y ∉ pySlice (fullCols df) i j)) df.cols r.2 (h r hr)

theorem WF_filter_rows {df : DF V} (h : WF df) (q : String × List V → Bool) :
    WF (⟨df.cols, df.rows.filter q⟩ : DF V) := by
  intro r hr
  exact h r (List.mem_filter.mp hr).1

/-- When the dropped slice is empty, the drop is the identity (needs every
row aligned with the columns, which pandas guarantees). -/
theorem dropSlice_nil {df : DF V} (h : WF df) {i j : Int}
    (hd : pySlice (fullCols df) i j = []) : dropSlice df i j = df := by
  have hcols : (dropSlice df i j).cols = df.cols := by
    show df.cols.filter (fun y => decide (Col.year y ∉ pySlice (fullCols df) i j)) = df.cols
    rw [List.filter_eq_self.mpr]
    intro a _
    rw [hd]
    simp
  have hrows : (dropSlice df i j).rows = df.rows := by
    show df.rows.map (fun r =>
      (r.1, keepVals df.cols (pySlice (fullCols df) i j) r.2)) = df.rows
    rw [List.map_congr_left (fun r hr => ?_), List.map_id]
    show (r.1, keepVals df.cols (pySlice (fullCols df) i j) r.2) = id r
    unfold keepVals
    rw [hd]
    rw [List.filter_eq_self.mpr (fun a _ => by simp),
      List.map_snd_zip _ _ (Nat.le_of_eq (h r hr))]
    rfl
  show DF.mk (dropSlice df i j).cols (dropSlice df i j).rows = df
  rw [hcols, hrows]

/-! ## The selection engine -/

/-- select, written out (the lets of the definition inlined). -/
theorem select_eq (df : DF V) (C : List String) (s e : Int) :
    select df C s e =
      dropSlice
        (dropSlice ⟨df.cols, df.rows.filter (fun r => decide (r.1 ∈ C))⟩ 1
          (s - minYear df + 1))
        (e - minYear df - (s - minYear df) + 2)
        (((fullCols (dropSlice ⟨df.cols, df.rows.filter (fun r => decide (r.1 ∈ C))⟩ 1
          (s - minYear df + 1))).length : Int) + 1) := rfl

/-- In-bounds selection: the returned columns are exactly the years s..e
and the returned rows are exactly the table's countries that lie in C, in
table order. -/
theorem select_spec (df : DF V) (C : List String) (s e y0 : Int) (n : Nat)
    (hc : df.cols = rangeYears y0 n) (h1 : y0 ≤ s) (h2 : s ≤ e)
    (h3 : e < y0 + n) :
    (select df C s e).cols = rangeYears s ((e - s).toNat + 1) ∧
    (select df C s e).rows.map Prod.fst =
      (df.rows.map Prod.fst).filter (fun c => decide (c ∈ C)) := by
  have hn : 0 < n := by omega
  have hmin : minYear df = y0 := by
    unfold minYear
    rw [hc]
    exact rangeYears_headD y0 hn
  rw [select_eq, hmin,
    show s - y0 + 1 = (((s - y0).toNat : Int)) + 1 by omega,
    show e - y0 - (s - y0) + 2 = (((e - s + 1).toNat : Int)) + 1 by omega]
  set mini : DF V := ⟨df.cols, df.rows.filter (fun r => decide (r.1 ∈ C))⟩ with hmini
  set k₁ := (s - y0).toNat with hk₁
  set k₂ := (e - s + 1).toNat with hk₂
  have hminicols : mini.cols = df.cols := rfl
  have hnd : mini.cols.Nodup := by
    rw [hminicols, hc]
    exact rangeYears_nodup y0 n
  have hlen : mini.cols.length = n := by rw [hminicols, hc, rangeYears_length]
  have hk₁le : k₁ ≤ mini.cols.length := by rw [hlen]; omega
  set m1 := dropSlice mini 1 ((k₁ : Int) + 1) with hm1
  have hm1cols : m1.cols = mini.cols.drop k₁ := dropSlice_prefix_cols mini hnd k₁ hk₁le
  have hm1nd : m1.cols.Nodup := by
    rw [hm1cols]
    exact List.Nodup.sublist (List.drop_sublist _ _) hnd
  have hm1len : m1.cols.length = n - k₁ := by rw [hm1cols, List.length_drop, hlen]
  have hj : ((m1.cols.length : Int)) + 1 ≤ ((fullCols m1).length : Int) + 1 := by
    rw [fullCols_length]
    push_cast
    omega
  have hk₂le : k₂ ≤ m1.cols.length := by rw [hm1len]; omega
  have hm2cols := dropSlice_suffix_cols m1 hm1nd k₂ hk₂le hj
  constructor
  · rw [hm2cols, hm1cols, hminicols, hc, rangeYears_drop, rangeYears_take,
      show y0 + (k₁ : Int) = s by omega,
      show min k₂ (n - k₁) = (e - s).toNat + 1 by omega]
  · rw [dropSlice_rows_fst, dropSlice_rows_fst]
    show (df.rows.filter (fun r => decide (r.1 ∈ C))).map Prod.fst = _
    exact map_fst_filter (fun c => decide (c ∈ C)) df.rows

/-! ## Reshaper (melt) lemmas -/

/-- One column of a well-indexed frame melts to one record per row, with
the column's year as every record's year and the countries in row order. -/
theorem filterMap_col_all_some (rows : List (String × List V)) (j : Nat) (y : Int)
    (h : ∀ r ∈ rows, j < r.2.length) :
    (rows.filterMap (fun r => (r.2.get? j).map (fun v => (r.1, y, v)))).length
        = rows.length ∧
    (rows.filterMap (fun r => (r.2.get? j).map (fun v => (r.1, y, v)))).map
        (fun t => t.1) = rows.map Prod.fst ∧
    (rows.filterMap (fun r => (r.2.get? j).map (fun v => (r.1, y, v)))).map
        (fun t => t.2.1) = List.replicate rows.length y := by
  induction rows with
  | nil => exact ⟨rfl, rfl, rfl⟩
  | cons r rs ih =>
    have hj := h r (by simp)
    have hf : (fun r : String × List V =>
        Option.map (fun v => (r.1, y, v)) (r.2.get? j)) r
        = some (r.1, y, r.2.get ⟨j, hj⟩) := by
      show Option.map _ (r.2.get? j) = _
      rw [List.get?_eq_get hj]
      rfl
    obtain ⟨ih1, ih2, ih3⟩ := ih (fun x hx => h x (List.mem_cons_of_mem _ hx))
    have hfc := @List.filterMap_cons_some (String × List V) (String × Int × V)
      (fun r => Option.map (fun v => (r.1, y, v)) (r.2.get? j)) r rs _ hf
    refine ⟨?_, ?_, ?_⟩
    · rw [hfc, List.length_cons, ih1, List.length_cons]
    · rw [hfc, List.map_cons, ih2, List.map_cons]
    · rw [hfc, List.map_cons, ih3, List.length_cons, List.replicate_succ]

/-- The stacked melt of the year columns from position j on: the record
count, the country projection (the country column repeated per year) and
the year projection (each year repeated per row, in column order). -/
theorem melt_enumFrom (df : DF V) : ∀ (ys : List Int) (j : Nat),
    (∀ r ∈ df.rows, j + ys.length ≤ r.2.length) →
    ((ys.enumFrom j).flatMap (fun jy => colRecords df jy.1 jy.2)).length
        = ys.length * df.rows.length ∧
    ((ys.enumFrom j).flatMap (fun jy => colRecords df jy.1 jy.2)).map
        (fun t => t.1) = ys.flatMap (fun _ => df.rows.map Prod.fst) ∧
    ((ys.enumFrom j).flatMap (fun jy => colRecords df jy.1 jy.2)).map
        (fun t => t.2.1) = ys.flatMap (fun y => List.replicate df.rows.length y) := by
  intro ys
  induction ys with
  | nil => exact fun j h => ⟨by simp, rfl, rfl⟩
  | cons y ys ih =>
    intro j h
    have hj : ∀ r ∈ df.rows, j < r.2.length := fun r hr => by
      have := h r hr
      simp only [List.length_cons] at this
      omega
    obtain ⟨c1, c2, c3⟩ := filterMap_col_all_some df.rows j y hj
    obtain ⟨i1, i2, i3⟩ := ih (j + 1) (fun r hr => by
      have := h r hr
      simp only [List.length_cons] at this ⊢
      omega)
    have hcrec : colRecords df j y
        = df.rows.filterMap (fun r => (r.2.get? j).map (fun v => (r.1, y, v))) := rfl
    rw [List.enumFrom_cons]
    refine ⟨?_, ?_, ?_⟩
    · rw [List.flatMap_cons, List.length_append, i1, hcrec, c1, List.length_cons]
      ring
    · rw [List.flatMap_cons, List.map_append, i2, hcrec, c2, List.flatMap_cons]
    · rw [List.flatMap_cons, List.map_append, i3, hcrec, c3, List.flatMap_cons]

/-- pd.melt of a well-formed frame: record count and the two projections
that fix the output ordering (year-major: the year columns are stacked in
ascending column order, rows kept in table order within each column). -/
theorem melt_spec (df : DF V) (h : WF df) :
    (melt df).length = df.cols.length * df.rows.length ∧
    (melt df).map (fun t => t.1)
        = df.cols.flatMap (fun _ => df.rows.map Prod.fst) ∧
    (melt df).map (fun t => t.2.1)
        = df.cols.flatMap (fun y => List.replicate df.rows.length y) :=
  melt_enumFrom df df.cols 0 (fun r hr => by rw [h r hr]; omega)

/-- select preserves row/column alignment. -/
theorem WF_select (df : DF V) (h : WF df) (C : List String) (s e : Int) :
    WF (select df C s e) := by
  rw [select_eq]
  exact WF_dropSlice (WF_dropSlice (WF_filter_rows h _) _ _) _ _

/-! ## Claim C2 — in-bounds selection -/

/-- C2: for every country list C and every year range (s, e) with s ≤ e
and both endpoints in the table's year set, the selection's columns are
exactly the years s..e and its rows are exactly the table's countries
lying in C (in table order; zero rows when C is empty). -/
theorem c2_selection (df : DF V) (C : List String) (s e y0 : Int) (n : Nat)
    (hc : df.cols = rangeYears y0 n) (hs : s ∈ df.cols) (he : e ∈ df.cols)
    (hse : s ≤ e) :
    (select df C s e).cols = rangeYears s ((e - s).toNat + 1) ∧
    (select df C s e).rows.map Prod.fst =
      (df.rows.map Prod.fst).filter (fun c => decide (c ∈ C)) := by
  rw [hc, mem_rangeYears] at hs he
  exact select_spec df C s e y0 n hc hs.1 hse he.2

/-- C2 (witness): the scenario table, selecting Zimbabwe over 2000-2001. -/
theorem c2_selection_witness :
    (select scenarioDF ["Zimbabwe"] 2000 2001).cols =
      rangeYears 2000 (((2001 : Int) - 2000).toNat + 1) ∧
    (select scenarioDF ["Zimbabwe"] 2000 2001).rows.map Prod.fst =
      (scenarioDF.rows.map Prod.fst).filter (fun c => decide (c ∈ ["Zimbabwe"])) :=
  c2_selection scenarioDF ["Zimbabwe"] 2000 2001 2000 3 (by decide) (by decide)
    (by decide) (by decide)

/-! ## Claim C5 — reshape completeness -/

/-- C5: for every country list C and in-bounds year range (s, e) with
s ≤ e, the number of tidy records produced by melting the selection is
the number of table countries lying in C times the number of years
e - s + 1. -/
theorem c5_melt_count (df : DF V) (C : List String) (s e y0 : Int) (n : Nat)
    (hw : WF df) (hc : df.cols = rangeYears y0 n) (hs : s ∈ df.cols)
    (he : e ∈ df.cols) (hse : s ≤ e) :
    (melt (select df C s e)).length =
      ((df.rows.map Prod.fst).filter (fun c => decide (c ∈ C))).length *
        ((e - s).toNat + 1) := by
  rw [hc, mem_rangeYears] at hs he
  obtain ⟨hcols, hrows⟩ := select_spec df C s e y0 n hc hs.1 hse he.2
  obtain ⟨hlen, -, -⟩ := melt_spec _ (WF_select df hw C s e)
  have hr : (select df C s e).rows.length =
      ((df.rows.map Prod.fst).filter (fun c => decide (c ∈ C))).length := by
    rw [← hrows, List.length_map]
  rw [hlen, hcols, rangeYears_length, hr, Nat.mul_comm]

/-- C5 (witness): the scenario table, both countries over 2000-2001:
2 * 2 = 4 records. -/
theorem c5_melt_count_witness :
    (melt (select scenarioDF ["Andorra", "Zimbabwe"] 2000 2001)).length =
      ((scenarioDF.rows.map Prod.fst).filter
        (fun c => decide (c ∈ ["Andorra", "Zimbabwe"]))).length *
        (((2001 : Int) - 2000).toNat + 1) :=
  c5_melt_count scenarioDF ["Andorra", "Zimbabwe"] 2000 2001 2000 3
    (by unfold WF; decide) (by decide) (by decide) (by decide) (by decide)

/-! ## Claim C4 — melt ordering -/

/-- C4 (counterexample): the claim's record sequence for the §8 scenario
is grouped by country; pd.melt stacks the year columns, so the code's
actual sequence is grouped by year (its second record is Zimbabwe 2000,
not Andorra 2001), and the claimed sequence differs from it. -/
theorem c4_counterexample :
    melt (select scenarioDF ["Andorra", "Zimbabwe"] 2000 2001) ≠
      [("Andorra", 2000, PyNum.pint 1000), ("Andorra", 2001, PyNum.pint 1100),
       ("Zimbabwe", 2000, PyNum.pint 500), ("Zimbabwe", 2001, PyNum.pint 1500)] := by
  decide

/-- C4 (amended): the melt output of a selected sub-table is grouped by
YEAR ascending, with the countries within each year block in table order
restricted to C; in the §8 scenario the tidy records are exactly
Andorra 2000, Zimbabwe 2000, Andorra 2001, Zimbabwe 2001 (and the raw
scenario table normalizes to the scenario frame, with "1.5k" becoming
1500). -/
theorem c4_amended :
    (∀ (V : Type) (df : DF V) (C : List String) (s e y0 : Int) (n : Nat),
      WF df → df.cols = rangeYears y0 n → s ∈ df.cols → e ∈ df.cols → s ≤ e →
      (melt (select df C s e)).map (fun t => t.1) =
        (rangeYears s ((e - s).toNat + 1)).flatMap
          (fun _ => (df.rows.map Prod.fst).filter (fun c => decide (c ∈ C))) ∧
      (melt (select df C s e)).map (fun t => t.2.1) =
        (rangeYears s ((e - s).toNat + 1)).flatMap
          (fun y => List.replicate (select df C s e).rows.length y)) ∧
    melt (select scenarioDF ["Andorra", "Zimbabwe"] 2000 2001) =
      [("Andorra", 2000, PyNum.pint 1000), ("Zimbabwe", 2000, PyNum.pint 500),
       ("Andorra", 2001, PyNum.pint 1100), ("Zimbabwe", 2001, PyNum.pint 1500)] ∧
    normalize rawScenario = .ok scenarioDF.rows := by
  refine ⟨?_, by decide, rfl⟩
  intro V df C s e y0 n hw hc hs he hse
  rw [hc, mem_rangeYears] at hs he
  obtain ⟨hcols, hrows⟩ := select_spec df C s e y0 n hc hs.1 hse he.2
  obtain ⟨-, hfst, hyear⟩ := melt_spec _ (WF_select df hw C s e)
  constructor
  · rw [hfst, hcols, hrows]
  · rw [hyear, hcols]

/-- C4 (witness): the general ordering statement applied to the scenario
selection. -/
theorem c4_amended_witness :
    (melt (select scenarioDF ["Andorra", "Zimbabwe"] 2000 2001)).map
        (fun t => t.1) =
      (rangeYears 2000 (((2001 : Int) - 2000).toNat + 1)).flatMap
        (fun _ => (scenarioDF.rows.map Prod.fst).filter
          (fun c => decide (c ∈ ["Andorra", "Zimbabwe"]))) ∧
    (melt (select scenarioDF ["Andorra", "Zimbabwe"] 2000 2001)).map
        (fun t => t.2.1) =
      (rangeYears 2000 (((2001 : Int) - 2000).toNat + 1)).flatMap
        (fun y => List.replicate
          (select scenarioDF ["Andorra", "Zimbabwe"] 2000 2001).rows.length y) :=
  c4_amended.1 PyNum scenarioDF ["Andorra", "Zimbabwe"] 2000 2001 2000 3
    (by unfold WF; decide) (by decide) (by decide) (by decide) (by decide)

/-! ## Claim C3 — out-of-range year endpoints -/

/-- C3 (counterexample): the claim says out-of-range endpoints are clamped
to the nearest valid bound.  With the scenario table (years 2000-2002),
the request (1999, 2000) — lower endpoint below the minimum — returns the
columns 2000 AND 2001, while the clamped request (2000, 2000) returns just
2000: the out-of-range lower endpoint is not clamped, the slice is simply
wrong. -/
theorem c3_counterexample :
    (select scenarioDF ["Andorra"] 1999 2000).cols = [2000, 2001] ∧
    (select scenarioDF ["Andorra"] 2000 2000).cols = [2000] ∧
    ([2000, 2001] : List Int) ≠ [2000] := by
  decide

/-- C3 (amended): only the UPPER endpoint is effectively clamped: for an
in-bounds start year and an end year beyond the maximum, the selection
equals the selection clamped to the maximum year (in particular the
engine does not fail).  A below-minimum lower endpoint is NOT clamped
(see the counterexample): it yields a wrongly-sliced column set. -/
theorem c3_amended :
    ∀ (V : Type) (df : DF V) (C : List String) (s e y0 : Int) (n : Nat),
      WF df → df.cols = rangeYears y0 n → y0 ≤ s → s ≤ y0 + n - 1 →
      y0 + n - 1 < e →
      select df C s e = select df C s (y0 + n - 1) := by
  intro V df C s e y0 n hw hc h1 h2 h3
  have hn : 0 < n := by omega
  have hmin : minYear df = y0 := by
    unfold minYear
    rw [hc]
    exact rangeYears_headD y0 hn
  rw [select_eq df C s e, select_eq df C s (y0 + n - 1), hmin,
    show s - y0 + 1 = (((s - y0).toNat : Int)) + 1 by omega]
  set mini : DF V := ⟨df.cols, df.rows.filter (fun r => decide (r.1 ∈ C))⟩ with hmini
  set k₁ := (s - y0).toNat with hk₁
  set m1 := dropSlice mini 1 ((k₁ : Int) + 1) with hm1
  have hw1 : WF m1 := WF_dropSlice (WF_filter_rows hw _) _ _
  have hnd : mini.cols.Nodup := by
    rw [show mini.cols = df.cols from rfl, hc]
    exact rangeYears_nodup y0 n
  have hlen : mini.cols.length = n := by
    rw [show mini.cols = df.cols from rfl, hc, rangeYears_length]
  have hk₁le : k₁ ≤ mini.cols.length := by rw [hlen]; omega
  have hm1cols : m1.cols = mini.cols.drop k₁ := dropSlice_prefix_cols mini hnd k₁ hk₁le
  have hfull : (fullCols m1).length = n - k₁ + 1 := by
    rw [fullCols_length, hm1cols, List.length_drop, hlen]
  have e1 : pyNorm (fullCols m1).length (((fullCols m1).length : Int) + 1) =
      (fullCols m1).length := pyNorm_of_ge (by omega)
  have e2 : pyNorm (fullCols m1).length (e - y0 - (s - y0) + 2) =
      (fullCols m1).length := pyNorm_of_ge (by rw [hfull]; push_cast; omega)
  have e3 : pyNorm (fullCols m1).length (y0 + n - 1 - y0 - (s - y0) + 2) =
      (fullCols m1).length := pyNorm_of_ge (by rw [hfull]; push_cast; omega)
  rw [dropSlice_nil hw1 (pySlice_eq_nil (by rw [e1, e2])),
    dropSlice_nil hw1 (pySlice_eq_nil (by rw [e1, e3]))]

/-- C3 (witness): the amended clamping statement on the scenario table:
selecting (2000, 2005) equals selecting (2000, 2002). -/
theorem c3_amended_witness :
    select scenarioDF ["Andorra"] 2000 2005 =
      select scenarioDF ["Andorra"] ((2000 : Int)) ((2000 : Int) + (3 : Nat) - 1) :=
  c3_amended PyNum scenarioDF ["Andorra"] 2000 2005 2000 3
    (by unfold WF; decide) (by decide) (by decide) (by decide) (by decide)

end App
